import Mathlib

/-!
Shallow embedding of the ML-service prediction pipeline
(`src/services/ML-service/app`): the request-validation logic of
`app/api/predict.py` (size-limited chunked reading, magic-number
sniffing, content-type consistency), the preprocessing chain of
`app/model/preprocess.py` (decode, RGB conversion, resize, tensor
conversion, per-channel normalization), and the postprocessing of the
inference step (softmax, argmax, percentage confidence).

Bytes are modelled as `List ℕ` (each entry one byte value), chunked
uploads as `List (List ℕ)` (the sequence of chunks returned by
`file.read(chunk_size)`, the terminating empty read being the end of the
list), pixel/tensor arithmetic over `ℚ`, and the inference-time real
arithmetic over `ℝ`.  External collaborators (the PIL decoder and the
torch classifier) are parameters of the pipeline, exactly as the spec
draws the component boundary.
-/

namespace MLService

/-- `MAX_FILE_SIZE = 5 * 1024 * 1024` from `app/api/predict.py`. -/
def MAX_FILE_SIZE : ℕ := 5 * 1024 * 1024

/-- `chunk_size = 1024 * 1024` from `predict_disease`. -/
def CHUNK_SIZE : ℕ := 1024 * 1024

/-- `JPEG_MAGIC = b'\xff\xd8\xff'`. -/
def JPEG_MAGIC : List ℕ := [0xff, 0xd8, 0xff]

/-- `PNG_MAGIC = b'\x89PNG\r\n\x1a\n'`. -/
def PNG_MAGIC : List ℕ := [0x89, 0x50, 0x4e, 0x47, 0x0d, 0x0a, 0x1a, 0x0a]

/-- `WEBP_MAGIC = b'RIFF'`. -/
def WEBP_MAGIC : List ℕ := [0x52, 0x49, 0x46, 0x46]

/-- `is_valid_image` from `app/api/predict.py`: reject buffers shorter
than 12 bytes, otherwise test the JPEG / PNG / WEBP magic prefixes. -/
def is_valid_image (content : List ℕ) : Bool :=
  if content.length < 12 then false
  else if JPEG_MAGIC.isPrefixOf content then true
  else if PNG_MAGIC.isPrefixOf content then true
  else if WEBP_MAGIC.isPrefixOf content then true
  else false

/-- An HTTP error response raised via `HTTPException(status_code, detail)`. -/
structure HttpError where
  status : ℕ
  detail : String
deriving DecidableEq, Repr

/-- The 413 response of the size check; the detail string is the value of
the f-string `f"File too large. Maximum size is \x7bMAX_FILE_SIZE / (1024 * 1024):.1f\x7dMB"`. -/
def payloadTooLargeErr : HttpError :=
  ⟨413, "File too large. Maximum size is 5.0MB"⟩

/-- The 400 response of the magic-number check. -/
def invalidImageErr : HttpError :=
  ⟨400, "Invalid image file. Only JPEG, PNG, and WebP formats are supported."⟩

/-- The 400 response of the content-type consistency check for a declared
type `ct`. -/
def contentTypeErr (ct : String) : HttpError :=
  ⟨400, "Invalid file type. Expected image, got " ++ ct⟩

/-- The 500 response of the catch-all `except Exception` handler. -/
def internalErr : HttpError :=
  ⟨500, "An error occurred while processing the image. Please try again with a different image."⟩

/-- The chunked reading loop of `predict_disease`: `total` is
`total_size`, `acc` the bytes written to `file_content` so far.  An empty
chunk breaks the loop; a running total above `MAX_FILE_SIZE` raises 413
before the chunk is written. -/
def readChunks : List (List ℕ) → ℕ → List ℕ → Except HttpError (List ℕ)
  | [], _, acc => .ok acc
  | c :: rest, total, acc =>
    if c.isEmpty then .ok acc
    else if MAX_FILE_SIZE < total + c.length then .error payloadTooLargeErr
    else readChunks rest (total + c.length) (acc ++ c)

/-- Python `str.startswith`: a prefix test on the character sequence. -/
def startswith (s p : String) : Bool :=
  p.data.isPrefixOf s.data

/-- The Python truthiness-and-prefix test
`file.content_type and not file.content_type.startswith("image/")`:
`none` (Python `None`) and the empty string are falsy, so the mismatch
fires only for a present, non-empty declared type outside `image/`. -/
def contentTypeBad : Option String → Bool
  | none => false
  | some s => !s.isEmpty && !(startswith s "image/")

/-- Occurrence of `needle` as a contiguous run of `hay`: a prefix match
at some suffix of `hay`. -/
def occursIn (needle : List Char) : List Char → Bool
  | [] => needle.isPrefixOf []
  | c :: t => needle.isPrefixOf (c :: t) || occursIn needle t

/-- Substring occurrence on strings (used to state "the detail
mentions ..."). -/
def mentions (hay needle : String) : Bool :=
  occursIn needle.data hay.data

/-! ### Preprocessing (`app/model/preprocess.py`) -/

/-- A PIL image mode, as relevant to `.convert("RGB")`: true-colour,
true-colour with alpha, or single-channel grayscale. -/
inductive PILMode where
  | rgb
  | rgba
  | gray
deriving DecidableEq, Repr

/-- One pixel as PIL stores it: red, green, blue, alpha bands (for
grayscale images only `r` carries the luminance value). -/
structure Pixel where
  r : ℕ
  g : ℕ
  b : ℕ
  a : ℕ
deriving DecidableEq, Repr

/-- A decoded PIL bitmap: a mode, dimensions, and a pixel access
function (indexed `px x y`, arbitrary outside the bounds). -/
structure PILImage where
  mode : PILMode
  width : ℕ
  height : ℕ
  px : ℕ → ℕ → Pixel

/-- `Image.convert("RGB")`: force three channels — drop the alpha band of
an RGBA image, replicate the luminance of a grayscale image. -/
def convertRGB (img : PILImage) : PILImage :=
  { img with
    mode := .rgb
    px := fun x y =>
      match img.mode with
      | .rgb => { img.px x y with a := 255 }
      | .rgba => { img.px x y with a := 255 }
      | .gray => ⟨(img.px x y).r, (img.px x y).r, (img.px x y).r, 255⟩ }

/-- `transforms.Resize((300, 300))` with a nearest-neighbour sampling
kernel (the kernel choice is a fixed deterministic implementation detail
of the external library; only the output geometry is contractual). -/
def resizeImage (img : PILImage) (w h : ℕ) : PILImage :=
  { mode := img.mode
    width := w
    height := h
    px := fun x y => img.px (x * img.width / w) (y * img.height / h) }

/-- The band of a pixel selected by a channel index, in torch channel
order (0 = red, 1 = green, 2 = blue). -/
def channelVal (p : Pixel) : Fin 3 → ℕ
  | 0 => p.r
  | 1 => p.g
  | 2 => p.b

/-- `transforms.ToTensor()`: a channels-first `[3, height, width]` tensor
of the pixel values scaled into `[0, 1]` by division by 255. -/
def toTensor (img : PILImage) : List (List (List ℚ)) :=
  List.ofFn fun c : Fin 3 =>
    List.ofFn fun y : Fin img.height =>
      List.ofFn fun x : Fin img.width =>
        (channelVal (img.px x y) c : ℚ) / 255

/-- `mean=[0.485, 0.456, 0.406]` of `transforms.Normalize`. -/
def NORM_MEAN : List ℚ := [0.485, 0.456, 0.406]

/-- `std=[0.229, 0.224, 0.225]` of `transforms.Normalize`. -/
def NORM_STD : List ℚ := [0.229, 0.224, 0.225]

/-- `transforms.Normalize(mean, std)`: per-channel `(x - mean[c]) / std[c]`. -/
def normalizeT (t : List (List (List ℚ))) : List (List (List ℚ)) :=
  List.zipWith (fun ms plane => plane.map (List.map fun v => (v - ms.1) / ms.2))
    (NORM_MEAN.zip NORM_STD) t

/-- The `transform` pipeline of `app/model/preprocess.py`:
`Compose([Resize((300, 300)), ToTensor(), Normalize(mean, std)])`. -/
def transform (img : PILImage) : List (List (List ℚ)) :=
  normalizeT (toTensor (resizeImage img 300 300))

/-- `preprocess_image`: decode the bytes (the decoder itself is the
external PIL collaborator, passed as the parameter `decode`; `none` is a
raised decode exception), convert to RGB, apply `transform`, and
`unsqueeze(0)` a batch axis. -/
def preprocess_image (decode : List ℕ → Option PILImage) (image_bytes : List ℕ) :
    Option (List (List (List (List ℚ)))) :=
  (decode image_bytes).map fun image => [transform (convertRGB image)]

/-! ### The request handler (`predict_disease` in `app/api/predict.py`) -/

/-- The body of `predict_disease`, with the external collaborators as
parameters: `infer` is the classifier applied to the preprocessed tensor
(model forward pass, softmax, argmax, labelling — injected, since the
loaded torch model is a startup-time external), `decode` the PIL
decoder, `chunks` the sequence of `file.read(chunk_size)` results, and
`content_type` the declared MIME type of the upload.  A decode failure
(`preprocess_image` raising) falls into the catch-all `except Exception`
branch, which returns the generic 500. -/
def predict_disease {α : Type} (infer : List (List (List (List ℚ))) → α)
    (decode : List ℕ → Option PILImage)
    (chunks : List (List ℕ)) (content_type : Option String) :
    Except HttpError α :=
  match readChunks chunks 0 [] with
  | .error e => .error e
  | .ok image_bytes =>
    if ¬ is_valid_image image_bytes then .error invalidImageErr
    else if contentTypeBad content_type then
      .error (contentTypeErr (content_type.getD ""))
    else
      match preprocess_image decode image_bytes with
      | none => .error internalErr
      | some input_tensor => .ok (infer input_tensor)

/-! ### Inference postprocessing (`predict_disease`, success branch) -/

/-- `NUM_CLASSES = 17` from `app/model/model_loader.py`. -/
def NUM_CLASSES : ℕ := 17

/-- Modelled from the spec: `app/model/labels.py` (imported as `LABELS`
by `predict.py`) is not among the provided sources; the spec fixes only
that it is an ordered vocabulary of 17 known class-name strings, so the
entries here are placeholders of the right count and order. -/
def LABELS : List String :=
  ["class_00", "class_01", "class_02", "class_03", "class_04", "class_05",
   "class_06", "class_07", "class_08", "class_09", "class_10", "class_11",
   "class_12", "class_13", "class_14", "class_15", "class_16"]

/-- `torch.softmax(outputs, dim=1)` on the 17-class logit vector (float
arithmetic idealized over ℝ). -/
noncomputable def softmax (logits : Fin NUM_CLASSES → ℝ) (i : Fin NUM_CLASSES) : ℝ :=
  Real.exp (logits i) / Finset.univ.sum fun j => Real.exp (logits j)

instance : Nonempty (Fin NUM_CLASSES) := ⟨⟨0, by decide⟩⟩

/-- `probabilities.max().item()`: the largest softmax probability. -/
noncomputable def maxProb (logits : Fin NUM_CLASSES → ℝ) : ℝ :=
  Finset.univ.sup' Finset.univ_nonempty (softmax logits)

/-- Python `round(y, 2)`: rounding to two decimal places (the half-tie
convention is idealized to round-half-up; ties only arise at exact
half-multiples of 1/200). -/
noncomputable def round2 (y : ℝ) : ℝ :=
  ((round (y * 100) : ℤ) : ℝ) / 100

/-- The reported confidence `round(confidence * 100, 2)` where
`confidence = probabilities.max().item()`. -/
noncomputable def confidencePct (logits : Fin NUM_CLASSES → ℝ) : ℝ :=
  round2 (maxProb logits * 100)

/-- `LABELS[pred_index]`: the vocabulary entry at a class index. -/
def labelOf (i : Fin NUM_CLASSES) : String :=
  LABELS.get ⟨i.val, lt_of_lt_of_le i.isLt (by decide)⟩

/-- Shape of a rank-4 nested-list tensor: outer length `a`, then `b`,
`c`, `d` along the successive axes. -/
def hasShape4 (t : List (List (List (List ℚ)))) (a b c d : ℕ) : Prop :=
  t.length = a ∧ ∀ p ∈ t, p.length = b ∧ ∀ q ∈ p, q.length = c ∧ ∀ r ∈ q, r.length = d

/-! ### Helper lemmas -/

theorem readChunks_ok (chunks : List (List ℕ)) :
    ∀ (total : ℕ) (acc : List ℕ),
      (∀ c ∈ chunks, c ≠ []) →
      total + (chunks.map List.length).sum ≤ MAX_FILE_SIZE →
      readChunks chunks total acc = .ok (acc ++ chunks.flatten) := by
  induction chunks with
  | nil => intro total acc _ _; simp [readChunks]
  | cons c rest ih =>
    intro total acc hne hle
    simp only [List.map_cons, List.sum_cons] at hle
    have hc : ¬ c.isEmpty = true := by
      simp only [List.isEmpty_iff]
      exact hne c (List.mem_cons_self c rest)
    have hnotlt : ¬ MAX_FILE_SIZE < total + c.length := by omega
    simp only [readChunks, if_neg hc, if_neg hnotlt]
    rw [ih (total + c.length) (acc ++ c)
      (fun d hd => hne d (List.mem_cons_of_mem c hd)) (by omega)]
    simp [List.flatten_cons, List.append_assoc]

theorem readChunks_error (chunks : List (List ℕ)) :
    ∀ (total : ℕ) (acc : List ℕ),
      (∀ c ∈ chunks, c ≠ []) →
      total ≤ MAX_FILE_SIZE →
      MAX_FILE_SIZE < total + (chunks.map List.length).sum →
      readChunks chunks total acc = .error payloadTooLargeErr := by
  induction chunks with
  | nil => intro total acc _ hle hlt; simp only [List.map_nil, List.sum_nil] at hlt; omega
  | cons c rest ih =>
    intro total acc hne hle hlt
    simp only [List.map_cons, List.sum_cons] at hlt
    have hc : ¬ c.isEmpty = true := by
      simp only [List.isEmpty_iff]
      exact hne c (List.mem_cons_self c rest)
    by_cases hstep : MAX_FILE_SIZE < total + c.length
    · simp only [readChunks, if_neg hc, if_pos hstep]
    · simp only [readChunks, if_neg hc, if_neg hstep]
      exact ih (total + c.length) (acc ++ c)
        (fun d hd => hne d (List.mem_cons_of_mem c hd)) (by omega) (by omega)

theorem isPrefixOf_congr_take (b₁ b₂ m : List ℕ) (hm : m.length ≤ 8)
    (h8 : b₁.take 8 = b₂.take 8) : m.isPrefixOf b₁ = m.isPrefixOf b₂ := by
  have htake : b₁.take m.length = b₂.take m.length := by
    have e₁ : b₁.take m.length = (b₁.take 8).take m.length := by
      rw [List.take_take, Nat.min_eq_left hm]
    have e₂ : b₂.take m.length = (b₂.take 8).take m.length := by
      rw [List.take_take, Nat.min_eq_left hm]
    rw [e₁, e₂, h8]
  apply Bool.coe_iff_coe.mp
  rw [List.isPrefixOf_iff_prefix, List.isPrefixOf_iff_prefix,
    List.prefix_iff_eq_take, List.prefix_iff_eq_take, htake]

/-! ### Claim theorems -/

theorem invalidImageErr_ne_contentTypeErr (s : String) :
    invalidImageErr ≠ contentTypeErr s := by
  intro h
  have hd : invalidImageErr.detail.data.take 12 = (contentTypeErr s).detail.data.take 12 := by
    rw [h]
  rw [show (contentTypeErr s).detail = "Invalid file type. Expected image, got " ++ s from rfl,
    String.data_append, List.take_append_of_le_length (by decide)] at hd
  revert hd
  decide

theorem predict_disease_validated (α : Type) (infer : List (List (List (List ℚ))) → α)
    (decode : List ℕ → Option PILImage) (chunks : List (List ℕ)) (ct : Option String)
    (hne : ∀ c ∈ chunks, c ≠ [])
    (hsize : (chunks.map List.length).sum ≤ MAX_FILE_SIZE)
    (hmagic : is_valid_image chunks.flatten = true)
    (hct : contentTypeBad ct = false) :
    predict_disease infer decode chunks ct =
      match preprocess_image decode chunks.flatten with
      | none => .error internalErr
      | some t => .ok (infer t) := by
  simp only [predict_disease, readChunks_ok chunks 0 [] hne (by omega), List.nil_append,
    hmagic, hct, Bool.false_eq_true, not_true_eq_false, if_false, if_neg]

/-- C4: every byte buffer shorter than 12 bytes is rejected by
`is_valid_image` regardless of its content, and an upload of such a
buffer is answered with the 400 invalid-image error. -/
theorem short_buffer_rejected (bytes : List ℕ) (ct : Option String)
    (hlen : bytes.length < 12) :
    is_valid_image bytes = false ∧ invalidImageErr.status = 400 ∧
    ∀ (α : Type) (infer : List (List (List (List ℚ))) → α)
      (decode : List ℕ → Option PILImage) (chunks : List (List ℕ)),
      chunks.flatten = bytes → (∀ c ∈ chunks, c ≠ []) →
      predict_disease infer decode chunks ct = .error invalidImageErr := by
  have hvalid : is_valid_image bytes = false := by
    simp only [is_valid_image, if_pos hlen]
  refine ⟨hvalid, rfl, ?_⟩
  intro α infer decode chunks hflat hne
  have hsize : 0 + (chunks.map List.length).sum ≤ MAX_FILE_SIZE := by
    have : (chunks.map List.length).sum = bytes.length := by
      rw [← hflat, List.length_flatten]
    rw [this]
    have : (12 : ℕ) ≤ MAX_FILE_SIZE := by decide
    omega
  simp only [predict_disease, readChunks_ok chunks 0 [] hne hsize, List.nil_append,
    hflat, hvalid, Bool.false_eq_true, not_false_iff, if_pos]

/-- C10: `is_valid_image` depends only on the length check and the first
8 bytes — two buffers of length at least 12 that agree on their first 8
bytes get the same verdict. -/
theorem is_valid_image_determined_by_first8 (b₁ b₂ : List ℕ)
    (h₁ : 12 ≤ b₁.length) (h₂ : 12 ≤ b₂.length)
    (h8 : b₁.take 8 = b₂.take 8) :
    is_valid_image b₁ = is_valid_image b₂ := by
  have hj := isPrefixOf_congr_take b₁ b₂ JPEG_MAGIC (by decide) h8
  have hp := isPrefixOf_congr_take b₁ b₂ PNG_MAGIC (by decide) h8
  have hw := isPrefixOf_congr_take b₁ b₂ WEBP_MAGIC (by decide) h8
  simp only [is_valid_image, if_neg (by omega : ¬ b₁.length < 12),
    if_neg (by omega : ¬ b₂.length < 12), hj, hp, hw]

/-- Witness for C10: two 12-byte buffers sharing their first 8 bytes but
differing at offsets 8–11. -/
theorem is_valid_image_first8_witness :
    is_valid_image (PNG_MAGIC ++ [1, 2, 3, 4]) =
      is_valid_image (PNG_MAGIC ++ [9, 9, 9, 9]) :=
  is_valid_image_determined_by_first8 _ _ (by decide) (by decide) (by decide)

/-- C2: any upload whose total byte size exceeds 5 MiB is rejected with
413 during chunked accumulation — independently of the decoder, the
classifier and the declared content-type — with a detail mentioning
"5.0MB", while a total of exactly 5 MiB passes the size check. -/
theorem oversize_rejected_413 (chunks : List (List ℕ)) (hne : ∀ c ∈ chunks, c ≠ []) :
    (MAX_FILE_SIZE < (chunks.map List.length).sum →
      readChunks chunks 0 [] = .error payloadTooLargeErr ∧
      (∀ (α : Type) (infer : List (List (List (List ℚ))) → α)
        (decode : List ℕ → Option PILImage) (ct : Option String),
        predict_disease infer decode chunks ct = .error payloadTooLargeErr) ∧
      payloadTooLargeErr.status = 413 ∧
      mentions payloadTooLargeErr.detail "5.0MB" = true) ∧
    ((chunks.map List.length).sum = MAX_FILE_SIZE →
      readChunks chunks 0 [] = .ok chunks.flatten) := by
  constructor
  · intro hlt
    have hread := readChunks_error chunks 0 [] hne (by omega) (by omega)
    refine ⟨hread, ?_, rfl, by decide⟩
    intro α infer decode ct
    simp only [predict_disease, hread]
  · intro heq
    have := readChunks_ok chunks 0 [] hne (by omega)
    simpa using this

/-- Witness for C2: a single 5 MiB + 1 chunk is rejected with the 413
error, a single exactly-5 MiB chunk passes the size check. -/
theorem oversize_rejected_413_witness :
    (readChunks [List.replicate (MAX_FILE_SIZE + 1) 0] 0 [] = .error payloadTooLargeErr ∧
      payloadTooLargeErr.status = 413 ∧
      mentions payloadTooLargeErr.detail "5.0MB" = true ∧
      predict_disease (fun _ => (0 : ℕ)) (fun _ => none)
        [List.replicate (MAX_FILE_SIZE + 1) 0] none = .error payloadTooLargeErr) ∧
    readChunks [List.replicate MAX_FILE_SIZE 0] 0 [] =
      .ok ([List.replicate MAX_FILE_SIZE 0].flatten) := by
  have hne₁ : ∀ c ∈ [List.replicate (MAX_FILE_SIZE + 1) (0 : ℕ)], c ≠ [] := by
    intro c hc
    rw [List.mem_singleton] at hc
    subst hc
    intro h
    have := congrArg List.length h
    simp at this
  have hne₂ : ∀ c ∈ [List.replicate MAX_FILE_SIZE (0 : ℕ)], c ≠ [] := by
    intro c hc
    rw [List.mem_singleton] at hc
    subst hc
    intro h
    have := congrArg List.length h
    simp at this
    exact absurd this (by decide)
  have h₁ := (oversize_rejected_413 [List.replicate (MAX_FILE_SIZE + 1) 0] hne₁).1
    (by
    simp only [List.map_cons, List.map_nil, List.sum_cons, List.sum_nil,
      List.length_replicate]
    omega)
  have h₂ := (oversize_rejected_413 [List.replicate MAX_FILE_SIZE 0] hne₂).2 (by simp)
  exact ⟨⟨h₁.1, h₁.2.2.1, h₁.2.2.2, h₁.2.1 ℕ (fun _ => 0) (fun _ => none) none⟩, h₂⟩

/-- C9: validation order is size → magic bytes → content-type: an
oversize upload is answered 413 whatever its bytes and declared type,
and an in-limit upload failing the magic check is answered with the 400
invalid-image error (never the content-type-mismatch error) even when
the declared type also fails the "image/" prefix test. -/
theorem validation_order (chunks : List (List ℕ)) (ct : Option String)
    (hne : ∀ c ∈ chunks, c ≠ []) :
    (MAX_FILE_SIZE < (chunks.map List.length).sum →
      ∀ (α : Type) (infer : List (List (List (List ℚ))) → α)
        (decode : List ℕ → Option PILImage),
        predict_disease infer decode chunks ct = .error payloadTooLargeErr) ∧
    ((chunks.map List.length).sum ≤ MAX_FILE_SIZE →
      is_valid_image chunks.flatten = false →
      ∀ (α : Type) (infer : List (List (List (List ℚ))) → α)
        (decode : List ℕ → Option PILImage),
        predict_disease infer decode chunks ct = .error invalidImageErr ∧
        ∀ s : String, invalidImageErr ≠ contentTypeErr s) := by
  constructor
  · intro hlt α infer decode
    simp only [predict_disease, readChunks_error chunks 0 [] hne (by omega) (by omega)]
  · intro hle hmagic α infer decode
    refine ⟨?_, invalidImageErr_ne_contentTypeErr⟩
    simp only [predict_disease, readChunks_ok chunks 0 [] hne (by omega), List.nil_append,
      hmagic, Bool.false_eq_true, not_false_iff, if_pos]

/-- Witness for C9: an oversize upload of non-image bytes with a
non-image declared type is answered 413; a 12-byte non-image upload with
the same non-image declared type is answered with the invalid-image 400,
not the type-mismatch 400. -/
theorem validation_order_witness :
    predict_disease (fun _ => (0 : ℕ)) (fun _ => none)
      [List.replicate (MAX_FILE_SIZE + 1) 0] (some "application/pdf") =
      .error payloadTooLargeErr ∧
    predict_disease (fun _ => (0 : ℕ)) (fun _ => none)
      [[1, 2, 3, 4, 5, 6, 7, 8, 9, 10, 11, 12]] (some "application/pdf") =
      .error invalidImageErr ∧
    invalidImageErr ≠ contentTypeErr "application/pdf" := by
  have hne₁ : ∀ c ∈ [List.replicate (MAX_FILE_SIZE + 1) (0 : ℕ)], c ≠ [] := by
    intro c hc
    rw [List.mem_singleton] at hc
    subst hc
    intro h
    have := congrArg List.length h
    simp at this
  have h₁ := (validation_order [List.replicate (MAX_FILE_SIZE + 1) 0]
    (some "application/pdf") hne₁).1 (by
    simp only [List.map_cons, List.map_nil, List.sum_cons, List.sum_nil,
      List.length_replicate]
    omega) ℕ (fun _ => 0) (fun _ => none)
  have h₂ := (validation_order [[1, 2, 3, 4, 5, 6, 7, 8, 9, 10, 11, 12]]
    (some "application/pdf") (by decide)).2 (by decide) (by decide) ℕ
    (fun _ => 0) (fun _ => none)
  exact ⟨h₁, h₂.1, h₂.2 "application/pdf"⟩

/-- Witness for C4: the 3-byte buffer holding just the JPEG magic is
rejected and the upload is answered 400. -/
theorem short_buffer_rejected_witness :
    is_valid_image [0xff, 0xd8, 0xff] = false ∧ invalidImageErr.status = 400 ∧
    predict_disease (fun _ => (0 : ℕ)) (fun _ => none)
      [[0xff, 0xd8, 0xff]] (some "image/jpeg") = .error invalidImageErr := by
  obtain ⟨h1, h2, h3⟩ := short_buffer_rejected [0xff, 0xd8, 0xff] (some "image/jpeg") (by decide)
  exact ⟨h1, h2, h3 ℕ (fun _ => 0) (fun _ => none) [[0xff, 0xd8, 0xff]] rfl (by decide)⟩

/-- C3: a buffer of length between 12 bytes and 5 MiB whose first bytes
equal one of the JPEG / PNG / WEBP-RIFF magic sequences passes
`is_valid_image` independently of the declared content-type, and the
upload passes validation (reaches the preprocessing stage) whenever the
declared type is absent, empty, or starts with "image/". -/
theorem magic_prefix_accepted (bytes : List ℕ) (ct : Option String)
    (hsize : bytes.length ≤ MAX_FILE_SIZE) (hlen : 12 ≤ bytes.length)
    (hmagic : JPEG_MAGIC.isPrefixOf bytes = true ∨ PNG_MAGIC.isPrefixOf bytes = true ∨
      WEBP_MAGIC.isPrefixOf bytes = true) :
    is_valid_image bytes = true ∧
    ((∀ s, ct = some s → s = "" ∨ startswith s "image/" = true) →
      ∀ (α : Type) (infer : List (List (List (List ℚ))) → α)
        (decode : List ℕ → Option PILImage) (chunks : List (List ℕ)),
        chunks.flatten = bytes → (∀ c ∈ chunks, c ≠ []) →
        predict_disease infer decode chunks ct =
          match preprocess_image decode bytes with
          | none => Except.error internalErr
          | some t => Except.ok (infer t)) := by
  have hlen' : ¬ bytes.length < 12 := by omega
  have hvalid : is_valid_image bytes = true := by
    rcases hmagic with h | h | h <;> simp [is_valid_image, hlen', h]
  refine ⟨hvalid, ?_⟩
  intro hct α infer decode chunks hflat hne
  have hctb : contentTypeBad ct = false := by
    cases ct with
    | none => rfl
    | some s =>
      rcases hct s rfl with h | h
      · subst h; rfl
      · simp [contentTypeBad, h]
  have hsum : (chunks.map List.length).sum ≤ MAX_FILE_SIZE := by
    rw [← List.length_flatten, hflat]
    exact hsize
  have := predict_disease_validated α infer decode chunks ct hne hsum
    (by rw [hflat]; exact hvalid) hctb
  rw [this, hflat]

/-- Witness for C3: a 12-byte RIFF-prefixed buffer with no declared type
passes validation and reaches preprocessing (here the decoder fails, so
the catch-all answers). -/
theorem magic_prefix_accepted_witness :
    is_valid_image (WEBP_MAGIC ++ [0, 0, 0, 0, 0, 0, 0, 0]) = true ∧
    predict_disease (fun _ => (0 : ℕ)) (fun _ => none)
      [WEBP_MAGIC ++ [0, 0, 0, 0, 0, 0, 0, 0]] none = .error internalErr := by
  obtain ⟨h1, h2⟩ := magic_prefix_accepted (WEBP_MAGIC ++ [0, 0, 0, 0, 0, 0, 0, 0]) none
    (by decide) (by decide) (Or.inr (Or.inr (by decide)))
  refine ⟨h1, ?_⟩
  rw [h2 (fun s hs => by cases hs) ℕ (fun _ => 0) (fun _ => none)
    [WEBP_MAGIC ++ [0, 0, 0, 0, 0, 0, 0, 0]] (by decide) (by decide)]
  rfl

/-- C5: for an in-limit upload whose bytes pass the magic check, the
content-type-mismatch 400 is returned iff the declared type is present,
non-empty and does not start with "image/". -/
theorem content_type_mismatch_iff (bytes : List ℕ) (ct : Option String)
    (chunks : List (List ℕ)) (α : Type) (infer : List (List (List (List ℚ))) → α)
    (decode : List ℕ → Option PILImage)
    (hflat : chunks.flatten = bytes) (hne : ∀ c ∈ chunks, c ≠ [])
    (hsize : bytes.length ≤ MAX_FILE_SIZE)
    (hmagic : is_valid_image bytes = true) :
    (predict_disease infer decode chunks ct = .error (contentTypeErr (ct.getD "")) ↔
      ∃ s, ct = some s ∧ s ≠ "" ∧ startswith s "image/" = false) ∧
    (contentTypeErr (ct.getD "")).status = 400 := by
  have hsum : (chunks.map List.length).sum ≤ MAX_FILE_SIZE := by
    rw [← List.length_flatten, hflat]
    exact hsize
  have hread := readChunks_ok chunks 0 [] hne (by omega)
  refine ⟨⟨?_, ?_⟩, rfl⟩
  · intro h
    cases hbad : contentTypeBad ct with
    | false =>
      exfalso
      rw [predict_disease_validated α infer decode chunks ct hne hsum
        (by rw [hflat]; exact hmagic) hbad] at h
      cases hp : preprocess_image decode chunks.flatten with
      | none =>
        rw [hp] at h
        have := congrArg
          (fun r : Except HttpError α => match r with | .error e => e.status | .ok _ => 0) h
        simp [internalErr, contentTypeErr] at this
      | some t =>
        rw [hp] at h
        exact Except.noConfusion h
    | true =>
      cases ct with
      | none => simp [contentTypeBad] at hbad
      | some s =>
        have hs : s.isEmpty = false ∧ startswith s "image/" = false := by
          simpa [contentTypeBad] using hbad
        refine ⟨s, rfl, ?_, hs.2⟩
        intro he
        rw [he] at hs
        exact absurd hs.1 (by decide)
  · rintro ⟨s, rfl, hne', hsw⟩
    have hemp : s.isEmpty = false := by
      cases he : s.isEmpty
      · rfl
      · exact absurd ((String.isEmpty_iff s).mp he) hne'
    have hbad : contentTypeBad (some s) = true := by
      simp [contentTypeBad, hemp, hsw]
    simp only [predict_disease, hread, List.nil_append, hflat, hmagic,
      not_true_eq_false, if_false, hbad, if_true]

/-- Witness for C5: correct PNG magic bytes with declared content-type
"application/pdf" yield the 400 type-mismatch response. -/
theorem content_type_mismatch_witness :
    predict_disease (fun _ => (0 : ℕ)) (fun _ => none)
      [PNG_MAGIC ++ [0, 0, 0, 0]] (some "application/pdf") =
      .error (contentTypeErr "application/pdf") ∧
    (contentTypeErr "application/pdf").status = 400 := by
  have h := content_type_mismatch_iff (PNG_MAGIC ++ [0, 0, 0, 0]) (some "application/pdf")
    [PNG_MAGIC ++ [0, 0, 0, 0]] ℕ (fun _ => 0) (fun _ => none)
    (by decide) (by decide) (by decide) (by decide)
  exact ⟨h.1.mpr ⟨"application/pdf", rfl, by decide, by decide⟩, h.2⟩

/-- C1 counterexample: an upload that passes the size limit, the magic
check and the content-type check but fails structural decode is answered
with the 500 catch-all response, not a 400 — refuting the claim as
stated. -/
theorem decode_failure_counterexample :
    is_valid_image (PNG_MAGIC ++ [0, 0, 0, 0]) = true ∧
    (PNG_MAGIC ++ [0, 0, 0, 0]).length ≤ MAX_FILE_SIZE ∧
    contentTypeBad (some "image/png") = false ∧
    predict_disease (fun _ => (0 : ℕ)) (fun _ => none)
      [PNG_MAGIC ++ [0, 0, 0, 0]] (some "image/png") = .error internalErr ∧
    internalErr.status = 500 ∧ ¬ internalErr.status = 400 := by
  refine ⟨by decide, by decide, by decide, ?_, rfl, by decide⟩
  rfl

/-- C1 amended: an upload that passes size, magic-number and
content-type validation but whose bytes fail structural decode is
answered with HTTP 500 and the generic processing-error detail (the
decode exception falls into the catch-all handler), not 400. -/
theorem decode_failure_yields_500 (bytes : List ℕ) (ct : Option String)
    (chunks : List (List ℕ)) (α : Type) (infer : List (List (List (List ℚ))) → α)
    (decode : List ℕ → Option PILImage)
    (hflat : chunks.flatten = bytes) (hne : ∀ c ∈ chunks, c ≠ [])
    (hsize : bytes.length ≤ MAX_FILE_SIZE)
    (hmagic : is_valid_image bytes = true)
    (hct : contentTypeBad ct = false)
    (hdec : decode bytes = none) :
    predict_disease infer decode chunks ct = .error internalErr ∧
    internalErr.status = 500 := by
  have hsum : (chunks.map List.length).sum ≤ MAX_FILE_SIZE := by
    rw [← List.length_flatten, hflat]
    exact hsize
  refine ⟨?_, rfl⟩
  rw [predict_disease_validated α infer decode chunks ct hne hsum
    (by rw [hflat]; exact hmagic) hct]
  rw [hflat]
  simp [preprocess_image, hdec]

/-- Witness for the amended C1: PNG magic bytes whose decode fails get
the 500 response. -/
theorem decode_failure_yields_500_witness :
    predict_disease (fun _ => (0 : ℕ)) (fun _ => none)
      [PNG_MAGIC ++ [7, 7, 7, 7]] (some "image/png") = .error internalErr ∧
    internalErr.status = 500 :=
  decode_failure_yields_500 (PNG_MAGIC ++ [7, 7, 7, 7]) (some "image/png")
    [PNG_MAGIC ++ [7, 7, 7, 7]] ℕ (fun _ => 0) (fun _ => none)
    (by decide) (by decide) (by decide) (by decide) (by decide) rfl

theorem expSum_pos (logits : Fin NUM_CLASSES → ℝ) :
    0 < Finset.univ.sum fun j => Real.exp (logits j) :=
  Finset.sum_pos (fun _ _ => Real.exp_pos _) Finset.univ_nonempty

theorem softmax_nonneg (logits : Fin NUM_CLASSES → ℝ) (i : Fin NUM_CLASSES) :
    0 ≤ softmax logits i :=
  div_nonneg (Real.exp_pos _).le (expSum_pos logits).le

theorem softmax_le_one (logits : Fin NUM_CLASSES → ℝ) (i : Fin NUM_CLASSES) :
    softmax logits i ≤ 1 := by
  rw [softmax, div_le_one (expSum_pos logits)]
  exact Finset.single_le_sum (fun j _ => (Real.exp_pos (logits j)).le) (Finset.mem_univ i)

theorem maxProb_nonneg (logits : Fin NUM_CLASSES → ℝ) : 0 ≤ maxProb logits := by
  obtain ⟨i, -, hi⟩ := Finset.exists_mem_eq_sup' Finset.univ_nonempty (softmax logits)
  rw [maxProb, hi]
  exact softmax_nonneg logits i

theorem maxProb_le_one (logits : Fin NUM_CLASSES → ℝ) : maxProb logits ≤ 1 := by
  rw [maxProb]
  exact Finset.sup'_le _ _ fun i _ => softmax_le_one logits i

theorem round2_bounds {y : ℝ} (h0 : 0 ≤ y) (h1 : y ≤ 100) :
    0 ≤ round2 y ∧ round2 y ≤ 100 := by
  rw [round2]
  constructor
  · apply div_nonneg _ (by norm_num)
    rw [round_eq]
    have h : (0 : ℤ) ≤ ⌊y * 100 + 1 / 2⌋ := Int.floor_nonneg.mpr (by nlinarith)
    exact_mod_cast h
  · rw [div_le_iff₀ (by norm_num : (0 : ℝ) < 100)]
    have hle : ((round (y * 100) : ℤ) : ℝ) ≤ y * 100 + 1 / 2 := round_le_add_half (y * 100)
    have h2 : ((round (y * 100) : ℤ) : ℝ) < 10001 := by nlinarith
    have h3 : round (y * 100) < 10001 := by exact_mod_cast h2
    have h4 : round (y * 100) ≤ 10000 := by omega
    have h5 : ((round (y * 100) : ℤ) : ℝ) ≤ 10000 := by exact_mod_cast h4
    nlinarith

/-- C6: for every logit vector, the reported confidence — the maximum
softmax probability times 100, rounded to two decimal places — lies in
[0, 100], and the label selected at a max-attaining index is a member of
the fixed 17-entry vocabulary. -/
theorem confidence_in_range_label_in_vocab (logits : Fin NUM_CLASSES → ℝ) :
    0 ≤ confidencePct logits ∧ confidencePct logits ≤ 100 ∧
    LABELS.length = 17 ∧
    ∃ i : Fin NUM_CLASSES, softmax logits i = maxProb logits ∧ labelOf i ∈ LABELS := by
  have h0 := maxProb_nonneg logits
  have h1 := maxProb_le_one logits
  have hb := round2_bounds (y := maxProb logits * 100) (by nlinarith) (by nlinarith)
  refine ⟨hb.1, hb.2, by decide, ?_⟩
  obtain ⟨i, -, hi⟩ := Finset.exists_mem_eq_sup' Finset.univ_nonempty (softmax logits)
  exact ⟨i, hi.symm, List.get_mem _ _ _⟩

theorem getD_ofFn {α : Type} {n : ℕ} (f : Fin n → α) (i : Fin n) (d : α) :
    (List.ofFn f).getD i.val d = f i := by
  rw [List.getD_eq_getElem?_getD, List.getElem?_ofFn]
  simp [List.ofFnNthVal, i.isLt]

theorem fin3_cases (P : Fin 3 → Prop) (h0 : P 0) (h1 : P 1) (h2 : P 2) : ∀ c, P c := by
  intro c
  match c with
  | ⟨0, _⟩ => exact h0
  | ⟨1, _⟩ => exact h1
  | ⟨2, _⟩ => exact h2

theorem mapped_plane_getD (u : Fin 300 → Fin 300 → ℚ) (h : ℚ → ℚ) (y x : Fin 300) :
    ((((List.ofFn fun yy => List.ofFn fun xx => u yy xx).map (List.map h)).getD y.val
        []).getD x.val 0) = h (u y x) := by
  rw [List.map_ofFn, getD_ofFn]
  simp only [Function.comp]
  rw [List.map_ofFn, getD_ofFn]
  simp [Function.comp]

theorem transform_expand (img' : PILImage) :
    transform img' =
      [ (List.ofFn fun yy : Fin 300 => List.ofFn fun xx : Fin 300 =>
            (channelVal (img'.px (xx.val * img'.width / 300) (yy.val * img'.height / 300))
              0 : ℚ) / 255).map (List.map fun v => (v - 0.485) / 0.229),
        (List.ofFn fun yy : Fin 300 => List.ofFn fun xx : Fin 300 =>
            (channelVal (img'.px (xx.val * img'.width / 300) (yy.val * img'.height / 300))
              1 : ℚ) / 255).map (List.map fun v => (v - 0.456) / 0.224),
        (List.ofFn fun yy : Fin 300 => List.ofFn fun xx : Fin 300 =>
            (channelVal (img'.px (xx.val * img'.width / 300) (yy.val * img'.height / 300))
              2 : ℚ) / 255).map (List.map fun v => (v - 0.406) / 0.225) ] :=
  rfl

theorem transform_struct (img' : PILImage) :
    (transform img').length = 3 ∧
    ∀ q ∈ transform img', q.length = 300 ∧ ∀ r ∈ q, r.length = 300 := by
  rw [transform_expand]
  refine ⟨rfl, ?_⟩
  intro q hq
  have hform : ∀ (g : Fin 300 → Fin 300 → ℚ) (h : ℚ → ℚ),
      ((List.ofFn fun yy => List.ofFn fun xx => g yy xx).map (List.map h)).length = 300 ∧
      ∀ r ∈ (List.ofFn fun yy => List.ofFn fun xx => g yy xx).map (List.map h),
        r.length = 300 := by
    intro g h
    refine ⟨by simp only [List.length_map, List.length_ofFn], ?_⟩
    intro r hr
    rw [List.map_ofFn] at hr
    obtain ⟨yy, hyy⟩ := (List.mem_ofFn _ _).mp hr
    rw [← hyy]
    simp only [Function.comp_apply, List.length_map, List.length_ofFn]
  simp only [List.mem_cons, List.not_mem_nil, or_false] at hq
  rcases hq with hq | hq | hq <;> rw [hq] <;> exact hform _ _

theorem getD_cons_one {α : Type} (a b : α) (l : List α) (d : α) :
    (a :: b :: l).getD 1 d = b :=
  rfl

theorem getD_cons_two {α : Type} (a b c : α) (l : List α) (d : α) :
    (a :: b :: c :: l).getD 2 d = c :=
  rfl

theorem transform_getD (img' : PILImage) :
    ∀ (c : Fin 3) (y x : Fin 300),
      (((transform img').getD c.val []).getD y.val []).getD x.val 0 =
        ((channelVal (img'.px (x.val * img'.width / 300) (y.val * img'.height / 300)) c : ℚ)
            / 255 - NORM_MEAN.getD c.val 0) / NORM_STD.getD c.val 0 := by
  refine fin3_cases _ ?_ ?_ ?_ <;> intro y x
  · rw [transform_expand, show ((0 : Fin 3).val : ℕ) = 0 from rfl, List.getD_cons_zero,
      mapped_plane_getD]
    rfl
  · rw [transform_expand, show ((1 : Fin 3).val : ℕ) = 1 from rfl, getD_cons_one,
      mapped_plane_getD]
    rfl
  · rw [transform_expand, show ((2 : Fin 3).val : ℕ) = 2 from rfl, getD_cons_two,
      mapped_plane_getD]
    rfl


/-- C7: every input byte sequence that decodes successfully yields a
tensor of shape exactly [1, 3, 300, 300] — three forced RGB channels,
the 300×300 resize, and a batch axis of size 1 — whose entry at batch 0,
channel `c`, row `y`, column `x` is the per-channel normalization
`(pixel / 255 - mean[c]) / std[c]` of the RGB-converted resized image. -/
theorem preprocess_shape_and_normalization (decode : List ℕ → Option PILImage)
    (bytes : List ℕ) (img : PILImage) (hdec : decode bytes = some img) :
    ∃ t, preprocess_image decode bytes = some t ∧ hasShape4 t 1 3 300 300 ∧
      ∀ (c : Fin 3) (y x : Fin 300),
        (((t.getD 0 []).getD c.val []).getD y.val []).getD x.val 0 =
          ((channelVal ((convertRGB img).px (x.val * img.width / 300)
              (y.val * img.height / 300)) c : ℚ)
            / 255 - NORM_MEAN.getD c.val 0) / NORM_STD.getD c.val 0 := by
  refine ⟨[transform (convertRGB img)], ?_, ?_, ?_⟩
  · rw [preprocess_image, hdec]
    rfl
  · obtain ⟨hlen, hq⟩ := transform_struct (convertRGB img)
    refine ⟨rfl, ?_⟩
    intro p hp
    rw [List.mem_singleton] at hp
    subst hp
    exact ⟨hlen, hq⟩
  · intro c y x
    rw [List.getD_cons_zero]
    exact transform_getD (convertRGB img) c y x

/-- Witness for C7: a 1×1 grayscale decode produces a [1, 3, 300, 300]
tensor. -/
theorem preprocess_shape_witness :
    ∃ t, preprocess_image (fun _ => some ⟨PILMode.gray, 1, 1, fun _ _ => ⟨5, 0, 0, 0⟩⟩)
        [0] = some t ∧ hasShape4 t 1 3 300 300 := by
  obtain ⟨t, h1, h2, -⟩ := preprocess_shape_and_normalization
    (fun _ => some ⟨PILMode.gray, 1, 1, fun _ _ => ⟨5, 0, 0, 0⟩⟩) [0]
    ⟨PILMode.gray, 1, 1, fun _ _ => ⟨5, 0, 0, 0⟩⟩ rfl
  exact ⟨t, h1, h2⟩

/-- C8: preprocessing is deterministic and side-effect free: two calls
on identical input byte sequences (with the same decoder collaborator)
return identical output tensors. -/
theorem preprocess_image_deterministic (decode : List ℕ → Option PILImage)
    (b₁ b₂ : List ℕ) (h : b₁ = b₂) :
    preprocess_image decode b₁ = preprocess_image decode b₂ := by
  rw [h]

/-- Witness for C8: two calls on the same concrete byte list agree. -/
theorem preprocess_image_deterministic_witness :
    preprocess_image (fun _ => none) [1, 2, 3] =
      preprocess_image (fun _ => none) [1, 2, 3] :=
  preprocess_image_deterministic (fun _ => none) [1, 2, 3] [1, 2, 3] rfl

end MLService
